import Mathlib

/-!
Verification of the ingestion pipeline of the AWS-Cert-Quiz-Platform repository
(`scripts/generate-questions.py` and `scripts/seed-questions.py`): the batch
writer (chunking and partial-failure reconciliation), the question-id
assignment, the item mappers, and the per-domain orchestrator loop.

Python machine integers are unbounded, so counts and indices are modelled as
`Nat`; wall-clock seconds (`int(time.time())`) as an explicit `Nat` parameter;
fallible store and generator calls as explicit oracle functions.
-/

namespace Quiz

/-- One DynamoDB `batch_write_item` outcome, as the scripts observe it:
either the call raised (transport failure caught by `except Exception`), or it
returned and `response.get('UnprocessedItems', {}).get(table_name, [])` is the
list of unprocessed put requests. -/
inductive StoreResp (α : Type) where
  | raised : StoreResp α
  | ok (unprocessed : List α) : StoreResp α
deriving DecidableEq

/-- Fuel-indexed chunking helper; with fuel at least the list length it
realises the loop `for i in range(0, len(items), 25): batch = items[i:i+25]`. -/
def chunkAux {α : Type} : Nat → List α → List (List α)
  | _, [] => []
  | 0, _ :: _ => []
  | fuel + 1, a :: l => ((a :: l).take 25) :: chunkAux fuel ((a :: l).drop 25)

/-- The batch-size-25 chunking of `insert_questions_to_dynamodb` /
`seed_questions` (`batch_size = 25`; `items[i:i + batch_size]`). -/
def chunkList25 {α : Type} (l : List α) : List (List α) :=
  chunkAux l.length l

/-- Per-chunk inserted count: `len(batch) - len(unprocessed)` when the call
returned, nothing when it raised. -/
def chunkInserted {α : Type} (r : StoreResp α) (c : List α) : Nat :=
  match r with
  | .ok u => c.length - u.length
  | .raised => 0

/-- Per-chunk contribution to `failed_items`: the unprocessed subset when the
call returned (`failed_items.extend(unprocessed.get(table_name, []))`), the
whole batch when it raised (`failed_items.extend(batch)`). -/
def chunkFailed {α : Type} (r : StoreResp α) (c : List α) : List α :=
  match r with
  | .ok u => u
  | .raised => c

/-- The batch-write loop of both scripts, abstracted over the store oracle
`resp` (the outcome of the `j`-th `batch_write_item` call).  Returns
`(total_inserted, failed_items, submitted chunks)`; every chunk is submitted
regardless of the outcomes of earlier chunks. -/
def batchWriteLoop {α : Type} (resp : Nat → StoreResp α) :
    Nat → List (List α) → Nat × List α × List (List α)
  | _, [] => (0, [], [])
  | j, c :: cs =>
    let rest := batchWriteLoop resp (j + 1) cs
    (chunkInserted (resp j) c + rest.1,
     chunkFailed (resp j) c ++ rest.2.1,
     c :: rest.2.2)

/-- The batching phase of `insert_questions_to_dynamodb` / `seed_questions`
applied to an already-mapped item list. -/
def batchWrite {α : Type} (items : List α) (resp : Nat → StoreResp α) :
    Nat × List α × List (List α) :=
  batchWriteLoop resp 0 (chunkList25 items)

/-- The per-chunk `(inserted, failed)` contributions, in submission order. -/
def chunkResults {α : Type} (resp : Nat → StoreResp α) :
    Nat → List (List α) → List (Nat × List α)
  | _, [] => []
  | j, c :: cs =>
    (chunkInserted (resp j) c, chunkFailed (resp j) c) :: chunkResults resp (j + 1) cs

lemma chunkAux_nil {α : Type} (f : Nat) : chunkAux f ([] : List α) = [] := by
  cases f <;> rfl

lemma length_drop25 {α : Type} (a : α) (t : List α) :
    ((a :: t).drop 25).length = t.length + 1 - 25 := by
  simp [List.length_drop]

lemma chunkAux_congr {α : Type} :
    ∀ (f g : Nat) (l : List α), l.length ≤ f → l.length ≤ g →
      chunkAux f l = chunkAux g l := by
  intro f
  induction f with
  | zero =>
    intro g l hf _
    have : l = [] := List.eq_nil_of_length_eq_zero (Nat.le_zero.mp hf)
    subst this
    simp [chunkAux_nil]
  | succ f ih =>
    intro g l hf hg
    cases l with
    | nil => simp [chunkAux_nil]
    | cons a t =>
      cases g with
      | zero => simp at hg
      | succ g =>
        have hd := length_drop25 a t
        have hf' : t.length + 1 ≤ f + 1 := by simpa using hf
        have hg' : t.length + 1 ≤ g + 1 := by simpa using hg
        have hlen : ((a :: t).drop 25).length ≤ f := by omega
        have hleng : ((a :: t).drop 25).length ≤ g := by omega
        simp only [chunkAux]
        rw [ih g _ hlen hleng]

lemma chunkList25_cons_eq {α : Type} (a : α) (t : List α) :
    chunkList25 (a :: t) = (a :: t).take 25 :: chunkList25 ((a :: t).drop 25) := by
  unfold chunkList25
  simp only [List.length_cons, chunkAux]
  refine congrArg _ (chunkAux_congr _ _ _ ?_ le_rfl)
  have := length_drop25 a t
  omega

lemma chunkAux_flatten {α : Type} :
    ∀ (f : Nat) (l : List α), l.length ≤ f → (chunkAux f l).flatten = l := by
  intro f
  induction f with
  | zero =>
    intro l hf
    have : l = [] := List.eq_nil_of_length_eq_zero (Nat.le_zero.mp hf)
    subst this
    simp [chunkAux_nil]
  | succ f ih =>
    intro l hf
    cases l with
    | nil => simp [chunkAux_nil]
    | cons a t =>
      have hd := length_drop25 a t
      have hf' : t.length + 1 ≤ f + 1 := by simpa using hf
      have hlen : ((a :: t).drop 25).length ≤ f := by omega
      simp only [chunkAux, List.flatten_cons]
      rw [ih _ hlen]
      exact List.take_append_drop 25 (a :: t)

lemma chunkList25_flatten {α : Type} (l : List α) : (chunkList25 l).flatten = l :=
  chunkAux_flatten l.length l le_rfl

lemma chunkAux_length {α : Type} :
    ∀ (f : Nat) (l : List α), l.length ≤ f →
      (chunkAux f l).length = (l.length + 24) / 25 := by
  intro f
  induction f with
  | zero =>
    intro l hf
    have : l = [] := List.eq_nil_of_length_eq_zero (Nat.le_zero.mp hf)
    subst this
    simp [chunkAux_nil]
  | succ f ih =>
    intro l hf
    cases l with
    | nil => simp [chunkAux_nil]
    | cons a t =>
      have hd := length_drop25 a t
      have hf' : t.length + 1 ≤ f + 1 := by simpa using hf
      have hlen : ((a :: t).drop 25).length ≤ f := by omega
      simp only [chunkAux, List.length_cons]
      rw [ih _ hlen, hd]
      omega

lemma chunkAux_sizes {α : Type} :
    ∀ (f : Nat) (l : List α), l.length ≤ f →
      ∀ c ∈ chunkAux f l, c.length ≤ 25 := by
  intro f
  induction f with
  | zero =>
    intro l hf c hc
    have : l = [] := List.eq_nil_of_length_eq_zero (Nat.le_zero.mp hf)
    subst this
    simp [chunkAux_nil] at hc
  | succ f ih =>
    intro l hf c hc
    cases l with
    | nil => simp [chunkAux_nil] at hc
    | cons a t =>
      have hd := length_drop25 a t
      have hf' : t.length + 1 ≤ f + 1 := by simpa using hf
      have hlen : ((a :: t).drop 25).length ≤ f := by omega
      simp only [chunkAux, List.mem_cons] at hc
      rcases hc with hc | hc
      · subst hc
        simp [List.length_take]
      · exact ih _ hlen c hc

lemma chunkAux_dropLast {α : Type} :
    ∀ (f : Nat) (l : List α), l.length ≤ f →
      ∀ c ∈ (chunkAux f l).dropLast, c.length = 25 := by
  intro f
  induction f with
  | zero =>
    intro l hf c hc
    have : l = [] := List.eq_nil_of_length_eq_zero (Nat.le_zero.mp hf)
    subst this
    simp [chunkAux_nil] at hc
  | succ f ih =>
    intro l hf c hc
    cases l with
    | nil => simp [chunkAux_nil] at hc
    | cons a t =>
      have hd := length_drop25 a t
      have hf' : t.length + 1 ≤ f + 1 := by simpa using hf
      have hlen : ((a :: t).drop 25).length ≤ f := by omega
      simp only [chunkAux] at hc
      cases hrest : chunkAux f ((a :: t).drop 25) with
      | nil => rw [hrest] at hc; simp at hc
      | cons r rs =>
        rw [hrest] at hc
        rw [List.dropLast_cons₂] at hc
        rcases List.mem_cons.mp hc with hc | hc
        · subst hc
          have hne : (a :: t).drop 25 ≠ [] := by
            intro hnil
            rw [hnil, chunkAux_nil] at hrest
            exact List.cons_ne_nil r rs hrest.symm
          have h25 : 25 < (a :: t).length := by
            by_contra hle
            push_neg at hle
            exact hne (List.drop_eq_nil_of_le hle)
          simp only [List.length_cons] at h25
          simp [List.length_take]
          omega
        · rw [← hrest] at hc
          exact ih _ hlen c hc

lemma chunkList25_length {α : Type} (l : List α) :
    (chunkList25 l).length = (l.length + 24) / 25 :=
  chunkAux_length l.length l le_rfl

lemma chunkList25_sizes {α : Type} (l : List α) :
    ∀ c ∈ chunkList25 l, c.length ≤ 25 :=
  chunkAux_sizes l.length l le_rfl

lemma chunkList25_dropLast {α : Type} (l : List α) :
    ∀ c ∈ (chunkList25 l).dropLast, c.length = 25 :=
  chunkAux_dropLast l.length l le_rfl

lemma batchWriteLoop_inserted {α : Type} (resp : Nat → StoreResp α) :
    ∀ (cs : List (List α)) (j : Nat),
      (batchWriteLoop resp j cs).1 = ((chunkResults resp j cs).map Prod.fst).sum := by
  intro cs
  induction cs with
  | nil => intro j; simp [batchWriteLoop, chunkResults]
  | cons c cs ih =>
    intro j
    simp only [batchWriteLoop, chunkResults, List.map_cons, List.sum_cons]
    rw [ih (j + 1)]

lemma batchWriteLoop_failed {α : Type} (resp : Nat → StoreResp α) :
    ∀ (cs : List (List α)) (j : Nat),
      (batchWriteLoop resp j cs).2.1 = ((chunkResults resp j cs).map Prod.snd).flatten := by
  intro cs
  induction cs with
  | nil => intro j; simp [batchWriteLoop, chunkResults]
  | cons c cs ih =>
    intro j
    simp only [batchWriteLoop, chunkResults, List.map_cons, List.flatten_cons]
    rw [ih (j + 1)]

lemma batchWriteLoop_submitted {α : Type} (resp : Nat → StoreResp α) :
    ∀ (cs : List (List α)) (j : Nat), (batchWriteLoop resp j cs).2.2 = cs := by
  intro cs
  induction cs with
  | nil => intro j; simp [batchWriteLoop]
  | cons c cs ih =>
    intro j
    simp only [batchWriteLoop]
    rw [ih (j + 1)]

lemma chunkResults_get? {α : Type} (resp : Nat → StoreResp α) :
    ∀ (cs : List (List α)) (j k : Nat),
      (chunkResults resp j cs).get? k =
        (cs.get? k).map fun c => (chunkInserted (resp (j + k)) c, chunkFailed (resp (j + k)) c) := by
  intro cs
  induction cs with
  | nil => intro j k; simp [chunkResults]
  | cons c cs ih =>
    intro j k
    cases k with
    | zero => simp [chunkResults]
    | succ k =>
      simp only [chunkResults, List.get?_cons_succ]
      rw [ih (j + 1) k]
      have harith : j + 1 + k = j + (k + 1) := by omega
      rw [harith]

lemma batchWriteLoop_total {α : Type} (resp : Nat → StoreResp α) :
    ∀ (cs : List (List α)) (j : Nat),
      (∀ k c, cs.get? k = some c →
        chunkInserted (resp (j + k)) c + (chunkFailed (resp (j + k)) c).length = c.length) →
      (batchWriteLoop resp j cs).1 + (batchWriteLoop resp j cs).2.1.length =
        (cs.map List.length).sum := by
  intro cs
  induction cs with
  | nil => intro j _; simp [batchWriteLoop]
  | cons c cs ih =>
    intro j h
    have hhead := h 0 c (by simp)
    simp only [Nat.add_zero] at hhead
    have htail := ih (j + 1) (by
      intro k c' hk
      have hshift := h (k + 1) c' (by simpa using hk)
      have harith : j + (k + 1) = j + 1 + k := by omega
      rwa [harith] at hshift)
    simp only [batchWriteLoop, List.map_cons, List.sum_cons, List.length_append]
    omega

/-- C1: Batch Writer conservation law — for every chunk, inserted-from-chunk
plus failed-from-chunk equals the chunk size (with `inserted = n - u` and
`failed = u` when the store reports `u` unprocessed items, `u ≤ n`, for a chunk
of size `n`), and summed over all chunks
`insertedCount + len(failedItems) = len(items)`. -/
theorem batch_writer_conservation {α : Type} (items : List α) (resp : Nat → StoreResp α)
    (hu : ∀ k u c, resp k = StoreResp.ok u → (chunkList25 items).get? k = some c →
      u.length ≤ c.length) :
    (∀ k c, (chunkList25 items).get? k = some c →
      chunkInserted (resp k) c + (chunkFailed (resp k) c).length = c.length) ∧
    (∀ k c u, (chunkList25 items).get? k = some c → resp k = StoreResp.ok u →
      chunkInserted (resp k) c = c.length - u.length ∧ chunkFailed (resp k) c = u) ∧
    (batchWrite items resp).1 + (batchWrite items resp).2.1.length = items.length := by
  have hper : ∀ k c, (chunkList25 items).get? k = some c →
      chunkInserted (resp k) c + (chunkFailed (resp k) c).length = c.length := by
    intro k c hk
    cases hr : resp k with
    | raised => simp [chunkInserted, chunkFailed]
    | ok u =>
      have := hu k u c hr hk
      simp [chunkInserted, chunkFailed]
      omega
  refine ⟨hper, ?_, ?_⟩
  · intro k c u hk hr
    rw [hr]
    exact ⟨rfl, rfl⟩
  · have htot := batchWriteLoop_total resp (chunkList25 items) 0 (by
      intro k c hk
      simpa using hper k c hk)
    rw [batchWrite, htot]
    have hjoin := chunkList25_flatten items
    calc ((chunkList25 items).map List.length).sum
        = (chunkList25 items).flatten.length := (List.length_flatten _).symm
      _ = items.length := by rw [hjoin]

/-- C1 witness: a 3-item batch with a store that processes everything. -/
theorem batch_writer_conservation_witness :
    (batchWrite [1, 2, 3] (fun _ => StoreResp.ok ([] : List Nat))).1 +
      (batchWrite [1, 2, 3] (fun _ => StoreResp.ok ([] : List Nat))).2.1.length = 3 :=
  (batch_writer_conservation [1, 2, 3] (fun _ => StoreResp.ok [])
    (by intro k u c h1 _; cases h1; simp)).2.2

/-- C5: Batch Writer chunking — exactly `⌈N / 25⌉` chunks (written
`(N + 24) / 25` in natural division), each of size at most 25, all but
possibly the last of size exactly 25, their concatenation in submission order
equal to the input; a 60-item input yields chunks of sizes 25, 25, 10. -/
theorem batch_writer_chunking {α : Type} (items : List α) :
    (chunkList25 items).length = (items.length + 24) / 25 ∧
    (∀ c ∈ chunkList25 items, c.length ≤ 25) ∧
    (∀ c ∈ (chunkList25 items).dropLast, c.length = 25) ∧
    (chunkList25 items).flatten = items ∧
    (items.length = 60 → (chunkList25 items).map List.length = [25, 25, 10]) := by
  refine ⟨chunkList25_length items, chunkList25_sizes items,
    chunkList25_dropLast items, chunkList25_flatten items, ?_⟩
  intro h60
  have hlen : (chunkList25 items).length = 3 := by
    rw [chunkList25_length items, h60]
  obtain ⟨c1, c2, c3, hcs⟩ := List.length_eq_three.mp hlen
  have hdl := chunkList25_dropLast items
  rw [hcs] at hdl
  have h1 : c1.length = 25 := hdl c1 (by simp)
  have h2 : c2.length = 25 := hdl c2 (by simp)
  have h3 : c3.length = 10 := by
    have hsum := chunkList25_flatten items
    rw [hcs] at hsum
    have hl := congrArg List.length hsum
    simp only [List.flatten, List.length_append, h60, List.length_nil] at hl
    simp [List.flatten_cons] at hl
    omega
  rw [hcs]
  simp [h1, h2, h3]

/-- C5 witness: the 60-element range is chunked as 25, 25, 10. -/
theorem batch_writer_chunking_witness :
    (chunkList25 (List.range 60)).map List.length = [25, 25, 10] :=
  (batch_writer_chunking (List.range 60)).2.2.2.2 (by simp)

/-- C8: a chunk whose store call raises is failed wholesale — the whole chunk
is appended to `failed_items`, it contributes zero to `insertedCount` (the
total being the sum of the per-chunk contributions), and every chunk,
including all subsequent ones, is still submitted. -/
theorem chunk_transport_failure_nonfatal {α : Type} (items : List α)
    (resp : Nat → StoreResp α) (k : Nat) (ck : List α)
    (hk : (chunkList25 items).get? k = some ck) (hr : resp k = StoreResp.raised) :
    ck <:+: (batchWrite items resp).2.1 ∧
    chunkInserted (resp k) ck = 0 ∧
    (batchWrite items resp).1 = ((chunkResults resp 0 (chunkList25 items)).map Prod.fst).sum ∧
    ((chunkResults resp 0 (chunkList25 items)).map Prod.fst).get? k = some 0 ∧
    (batchWrite items resp).2.2 = chunkList25 items := by
  have hres : (chunkResults resp 0 (chunkList25 items)).get? k = some (0, ck) := by
    rw [chunkResults_get?, hk]
    simp only [Nat.zero_add, Option.map_some']
    rw [hr]
    rfl
  refine ⟨?_, by rw [hr]; rfl, batchWriteLoop_inserted resp _ 0, ?_,
    batchWriteLoop_submitted resp _ 0⟩
  · have hmem : (0, ck) ∈ chunkResults resp 0 (chunkList25 items) :=
      List.get?_mem hres
    have hsnd : ck ∈ (chunkResults resp 0 (chunkList25 items)).map Prod.snd :=
      List.mem_map_of_mem Prod.snd hmem
    rw [batchWrite, batchWriteLoop_failed resp _ 0]
    exact List.infix_of_mem_flatten hsnd
  · rw [List.get?_map, hres]
    rfl

/-- C8 witness: a single 3-item chunk whose call raises. -/
theorem chunk_transport_failure_nonfatal_witness :
    ([1, 2, 3] : List Nat) <:+:
        (batchWrite [1, 2, 3] (fun _ => (StoreResp.raised : StoreResp Nat))).2.1 ∧
    chunkInserted ((fun _ => (StoreResp.raised : StoreResp Nat)) 0) [1, 2, 3] = 0 ∧
    (batchWrite [1, 2, 3] (fun _ => (StoreResp.raised : StoreResp Nat))).1 =
      ((chunkResults (fun _ => (StoreResp.raised : StoreResp Nat)) 0
        (chunkList25 [1, 2, 3])).map Prod.fst).sum ∧
    ((chunkResults (fun _ => (StoreResp.raised : StoreResp Nat)) 0
        (chunkList25 [1, 2, 3])).map Prod.fst).get? 0 = some 0 ∧
    (batchWrite [1, 2, 3] (fun _ => (StoreResp.raised : StoreResp Nat))).2.2 =
      chunkList25 [1, 2, 3] :=
  chunk_transport_failure_nonfatal [1, 2, 3] (fun _ => StoreResp.raised) 0 [1, 2, 3] rfl rfl

/-- The decimal digit character for `d < 10`, as Python renders it. -/
def digChar (d : Nat) : Char := Char.ofNat (48 + d)

/-- Inverse of `digChar` on digit characters. -/
def undig (c : Char) : Nat := c.toNat - 48

/-- Fuel-indexed little-endian decimal digit characters of `n`. -/
def toDecAux : Nat → Nat → List Char
  | _, 0 => []
  | 0, _ + 1 => []
  | fuel + 1, n + 1 => digChar ((n + 1) % 10) :: toDecAux fuel ((n + 1) / 10)

/-- The decimal rendering of a natural number as a character list, most
significant digit first — the digits of Python `str(n)` / `f"{n:d}"`. -/
def natToDecChars (n : Nat) : List Char :=
  if n = 0 then ['0'] else (toDecAux n n).reverse

/-- The character list behind Python `f"{n:04d}"`: the decimal rendering
left-padded with zeros to a minimum width of four. -/
def pad4Chars (n : Nat) : List Char :=
  List.replicate (4 - (natToDecChars n).length) '0' ++ natToDecChars n

/-- Python `str(n)` for a natural number. -/
def natToDec (n : Nat) : String := String.mk (natToDecChars n)

/-- Python `f"{n:04d}"` for a natural number. -/
def pad4 (n : Nat) : String := String.mk (pad4Chars n)

/-- The exam-type-to-id-code lookup of `generate_question_id` in both scripts:
`{"Developer-Associate": "DEV", ...}.get(exam_type, "DEV")`.  Note the silent
default to `"DEV"` for unknown exam types. -/
def examCode (exam_type : String) : String :=
  if exam_type = "Developer-Associate" then "DEV"
  else if exam_type = "Solutions-Architect-Associate" then "SAA"
  else if exam_type = "SysOps-Administrator-Associate" then "SOA"
  else "DEV"

/-- `generate_question_id` of `generate-questions.py` (time-salted strategy):
`f"{exam_prefix}-{timestamp}-{index:04d}"`, with `timestamp = int(time.time())`
passed explicitly. -/
def generate_question_id (exam_type : String) (timestamp index : Nat) : String :=
  examCode exam_type ++ "-" ++ natToDec timestamp ++ "-" ++ pad4 index

/-- `generate_question_id` of `seed-questions.py` (sequential strategy):
`f"{exam_prefix}-{index:04d}"`. -/
def seed_question_id (exam_type : String) (index : Nat) : String :=
  examCode exam_type ++ "-" ++ pad4 index

/-- Decimal decoding of a most-significant-first digit-character list. -/
def decodeChars (l : List Char) : Nat :=
  Nat.ofDigits 10 ((l.map undig).reverse)

lemma undig_digChar {d : Nat} (h : d < 10) : undig (digChar d) = d := by
  interval_cases d <;> rfl

lemma digChar_ne_dash {d : Nat} (h : d < 10) : digChar d ≠ '-' := by
  interval_cases d <;> decide

lemma toDecAux_eq_digits :
    ∀ (f n : Nat), n ≤ f → toDecAux f n = (Nat.digits 10 n).map digChar := by
  intro f
  induction f with
  | zero =>
    intro n h
    have : n = 0 := Nat.le_zero.mp h
    subst this
    simp [toDecAux]
  | succ f ih =>
    intro n h
    cases n with
    | zero => simp [toDecAux]
    | succ n =>
      have hdiv : (n + 1) / 10 ≤ f := by
        have := Nat.div_lt_self (Nat.succ_pos n) (by norm_num : 1 < 10)
        omega
      rw [Nat.digits_def' (by norm_num : 1 < 10) (Nat.succ_pos n)]
      simp only [toDecAux, List.map_cons]
      rw [ih _ hdiv]

lemma natToDecChars_eq (n : Nat) (h : n ≠ 0) :
    natToDecChars n = ((Nat.digits 10 n).map digChar).reverse := by
  rw [natToDecChars, if_neg h, toDecAux_eq_digits n n le_rfl]

lemma decode_natToDecChars (n : Nat) : decodeChars (natToDecChars n) = n := by
  by_cases h : n = 0
  · subst h
    rfl
  · rw [natToDecChars_eq n h, decodeChars]
    rw [List.map_reverse, List.reverse_reverse, List.map_map]
    have hcong : (Nat.digits 10 n).map (undig ∘ digChar) = Nat.digits 10 n := by
      rw [List.map_congr_left, List.map_id]
      intro d hd
      exact undig_digChar (Nat.digits_lt_base (by norm_num) hd)
    rw [hcong, Nat.ofDigits_digits]

lemma ofDigits_replicate_zero : ∀ k : Nat, Nat.ofDigits 10 (List.replicate k 0) = 0 := by
  intro k
  induction k with
  | zero => rfl
  | succ k ih =>
    rw [List.replicate_succ, Nat.ofDigits_cons, ih]

lemma decode_pad4 (n : Nat) : decodeChars (pad4Chars n) = n := by
  rw [pad4Chars, decodeChars, List.map_append, List.reverse_append]
  have hrep : (List.replicate (4 - (natToDecChars n).length) '0').map undig =
      List.replicate (4 - (natToDecChars n).length) 0 := by
    rw [List.map_replicate]
    rfl
  rw [hrep, List.reverse_replicate, Nat.ofDigits_append, ofDigits_replicate_zero]
  have hdec := decode_natToDecChars n
  rw [decodeChars] at hdec
  simpa using hdec

lemma pad4Chars_inj {a b : Nat} (h : pad4Chars a = pad4Chars b) : a = b := by
  have ha := decode_pad4 a
  have hb := decode_pad4 b
  rw [h] at ha
  exact ha.symm.trans hb

lemma natToDecChars_ne_dash (n : Nat) : ∀ c ∈ natToDecChars n, c ≠ '-' := by
  by_cases h : n = 0
  · subst h
    intro c hc
    simp [natToDecChars] at hc
    subst hc
    decide
  · rw [natToDecChars_eq n h]
    intro c hc
    rw [List.mem_reverse, List.mem_map] at hc
    obtain ⟨d, hd, rfl⟩ := hc
    exact digChar_ne_dash (Nat.digits_lt_base (by norm_num) hd)

lemma append_dash_inj :
    ∀ (l₁ : List Char) (r₁ : List Char) (l₂ : List Char) (r₂ : List Char),
      (∀ c ∈ l₁, c ≠ '-') → (∀ c ∈ l₂, c ≠ '-') →
      l₁ ++ '-' :: r₁ = l₂ ++ '-' :: r₂ → l₁ = l₂ ∧ r₁ = r₂ := by
  intro l₁
  induction l₁ with
  | nil =>
    intro r₁ l₂ r₂ _ h₂ he
    cases l₂ with
    | nil =>
      simp at he
      exact ⟨rfl, he⟩
    | cons c l₂ =>
      simp at he
      exact absurd he.1.symm (h₂ c (by simp))
  | cons a l₁ ih =>
    intro r₁ l₂ r₂ h₁ h₂ he
    cases l₂ with
    | nil =>
      simp at he
      exact absurd he.1 (h₁ a (by simp))
    | cons b l₂ =>
      simp only [List.cons_append, List.cons.injEq] at he
      obtain ⟨rfl, he⟩ := he
      obtain ⟨h, h'⟩ := ih r₁ l₂ r₂ (fun c hc => h₁ c (by simp [hc]))
        (fun c hc => h₂ c (by simp [hc])) he
      exact ⟨by rw [h], h'⟩

lemma string_append_data (s t : String) : (s ++ t).data = s.data ++ t.data := rfl

lemma generate_question_id_data (exam_type : String) (t i : Nat) :
    (generate_question_id exam_type t i).data =
      (examCode exam_type).data ++ '-' :: (natToDecChars t ++ '-' :: pad4Chars i) := by
  simp [generate_question_id, string_append_data, natToDec, pad4]

lemma seed_question_id_data (exam_type : String) (i : Nat) :
    (seed_question_id exam_type i).data =
      (examCode exam_type).data ++ '-' :: pad4Chars i := by
  simp [seed_question_id, string_append_data, pad4]

/-- Injectivity of the time-salted id in the pair (timestamp, index), for a
fixed exam type. -/
lemma generate_question_id_inj {exam_type : String} {t₁ i₁ t₂ i₂ : Nat}
    (h : generate_question_id exam_type t₁ i₁ = generate_question_id exam_type t₂ i₂) :
    t₁ = t₂ ∧ i₁ = i₂ := by
  have hd := congrArg String.data h
  rw [generate_question_id_data, generate_question_id_data] at hd
  have hd' := List.append_cancel_left hd
  simp only [List.cons.injEq, true_and] at hd'
  obtain ⟨hts, hpad⟩ := append_dash_inj _ _ _ _
    (natToDecChars_ne_dash t₁) (natToDecChars_ne_dash t₂) hd'
  constructor
  · have h₁ := decode_natToDecChars t₁
    rw [hts, decode_natToDecChars t₂] at h₁
    exact h₁.symm
  · exact pad4Chars_inj hpad

/-- Injectivity of the sequential id in the index, for a fixed exam type. -/
lemma seed_question_id_inj {exam_type : String} {i₁ i₂ : Nat}
    (h : seed_question_id exam_type i₁ = seed_question_id exam_type i₂) : i₁ = i₂ := by
  have hd := congrArg String.data h
  rw [seed_question_id_data, seed_question_id_data] at hd
  have hd' := List.append_cancel_left hd
  simp only [List.cons.injEq, true_and] at hd'
  exact pad4Chars_inj hd'

/-- C4: the Key Assigner does not fail on an exam type outside the lookup
table — both scripts silently produce an id with the default `DEV` code
instead of raising a `ConfigurationError` (the behaviour §9 of the spec flags
as unintended). -/
theorem unknown_exam_type_defaults :
    generate_question_id "Machine-Learning-Specialty" 9 1 = "DEV-9-0001" ∧
    seed_question_id "Machine-Learning-Specialty" 1 = "DEV-0001" := by
  constructor <;> decide

/-- C6: for every exam type, every fixed run start and every `N`, the ids
produced for indices `1..N` are pairwise distinct, for both the time-salted
strategy of `generate-questions.py` and the sequential strategy of
`seed-questions.py` — including indices beyond the 4-digit padding width. -/
theorem question_ids_nodup (exam_type : String) (runStart N : Nat) :
    ((List.range N).map fun i => generate_question_id exam_type runStart (i + 1)).Nodup ∧
    ((List.range N).map fun i => seed_question_id exam_type (i + 1)).Nodup := by
  constructor
  · refine List.Nodup.map ?_ (List.nodup_range N)
    intro a b hab
    have := (generate_question_id_inj hab).2
    omega
  · refine List.Nodup.map ?_ (List.nodup_range N)
    intro a b hab
    have := seed_question_id_inj hab
    omega

/-- The composite keys (`PK`, `SK`) produced for one domain of a
`generate-questions.py` run: item `i` (0-based) is created with
`create_question_item(q, exam_type, i + 1)`, reading the clock `tsList[i]`
at creation time. -/
def domainKeys (exam_type : String) (tsList : List Nat) : List (String × String) :=
  tsList.enum.map fun p =>
    ("EXAM#" ++ exam_type, "QUESTION#" ++ generate_question_id exam_type p.2 (p.1 + 1))

/-- The composite keys submitted across a whole run: the per-item index is
reset to 1 at the start of each domain, while the clock keeps running. -/
def runKeys (exam_type : String) (tss : List (List Nat)) : List (String × String) :=
  (tss.map (domainKeys exam_type)).flatten

lemma runKey_component_inj {exam_type : String} {t₁ i₁ t₂ i₂ : Nat}
    (h : ("EXAM#" ++ exam_type, "QUESTION#" ++ generate_question_id exam_type t₁ i₁) =
      ("EXAM#" ++ exam_type, "QUESTION#" ++ generate_question_id exam_type t₂ i₂)) :
    t₁ = t₂ ∧ i₁ = i₂ := by
  have hsk := congrArg (fun p => (Prod.snd p).data) h
  simp only [string_append_data] at hsk
  have hid := List.append_cancel_left hsk
  exact generate_question_id_inj (by
    apply String.ext
    exact hid)

lemma mem_enum_snd {α : Type} {p : Nat × α} {l : List α} (h : p ∈ l.enum) : p.2 ∈ l := by
  obtain ⟨i, x⟩ := p
  rw [List.mk_mem_enum_iff_getElem?] at h
  exact List.getElem?_mem h

/-- C2: run-wide key uniqueness — with the per-item index reset to 1 at each
domain, the composite keys submitted across all domains of one run are
pairwise distinct.  The clock hypothesis states that every timestamp observed
while creating a later domain's items strictly exceeds every timestamp of an
earlier domain's items; it is what the mandatory 2-second inter-domain
`time.sleep(2)` (plus the intervening Bedrock call) guarantees for the
`int(time.time())` readings. -/
theorem run_keys_nodup (exam_type : String) (tss : List (List Nat))
    (hclock : tss.Pairwise fun l₁ l₂ => ∀ a ∈ l₁, ∀ b ∈ l₂, a < b) :
    (runKeys exam_type tss).Nodup := by
  rw [runKeys, List.nodup_flatten]
  constructor
  · intro ks hks
    rw [List.mem_map] at hks
    obtain ⟨ts, _, rfl⟩ := hks
    rw [domainKeys]
    refine List.Nodup.map ?_ ?_
    · intro p q hpq
      have h2 := (runKey_component_inj hpq).2
      have hfst : p.1 = q.1 := by omega
      have hsnd : p.2 = q.2 := (runKey_component_inj hpq).1
      exact Prod.ext hfst hsnd
    · exact List.Nodup.of_map Prod.fst (List.nodup_enum_map_fst ts)
  · have := List.Pairwise.map (f := domainKeys exam_type)
      (R := fun l₁ l₂ : List Nat => ∀ a ∈ l₁, ∀ b ∈ l₂, a < b)
      (S := fun k₁ k₂ : List (String × String) => k₁.Disjoint k₂) ?_ hclock
    · exact this
    · intro l₁ l₂ hlt key hk₁ hk₂
      rw [domainKeys, List.mem_map] at hk₁ hk₂
      obtain ⟨p, hp, rfl⟩ := hk₁
      obtain ⟨q, hq, hkey⟩ := hk₂
      have hts := (runKey_component_inj hkey.symm).1
      have ha : p.2 ∈ l₁ := mem_enum_snd hp
      have hb : q.2 ∈ l₂ := mem_enum_snd hq
      have := hlt p.2 ha q.2 hb
      omega

/-- C2 witness: two domains of a concrete run, with the clock advancing
across the domain boundary. -/
theorem run_keys_nodup_witness :
    (runKeys "Developer-Associate" [[3, 3, 4], [6, 7]]).Nodup :=
  run_keys_nodup "Developer-Associate" [[3, 3, 4], [6, 7]] (by decide)

/-- A raw question record as a Python dict: `some` marks a key that is
present, `none` a key that is absent.  Options are `{id, text}` pairs. -/
structure RawQuestion where
  domain : Option String
  questionType : Option String
  difficulty : Option String
  questionText : Option String
  scenario : Option String
  options : Option (List (String × String))
  correctAnswers : Option (List String)
  explanation : Option String
  references : Option (List String)
  codeSnippet : Option String
deriving DecidableEq

/-- A DynamoDB item as built by `create_question_item`; the two optional
attributes are `Option`-valued because the scripts emit them conditionally. -/
structure StoreItem where
  PK : String
  SK : String
  id : String
  examType : String
  domain : String
  questionType : String
  difficulty : String
  questionText : String
  options : List (String × String)
  correctAnswers : List String
  explanation : String
  references : List String
  status : String
  timesAnswered : Nat
  timesCorrect : Nat
  averageTimeSpent : Nat
  createdAt : String
  updatedAt : String
  createdBy : String
  scenario : Option String
  codeSnippet : Option String
deriving DecidableEq

namespace Gen

/-- `create_question_item` of `generate-questions.py`.  A direct dict access
on an absent required key raises `KeyError`, modelled as `none`; no invariant
on the field values is ever checked.  The `scenario` attribute is emitted only
when the key is present AND truthy (`if "scenario" in question_data and
question_data["scenario"]`); no `codeSnippet` attribute is ever emitted. -/
def create_question_item (q : RawQuestion) (exam_type : String)
    (index timestamp : Nat) (now : String) : Option StoreItem :=
  match q.domain, q.questionType, q.difficulty, q.questionText, q.options,
      q.correctAnswers, q.explanation, q.references with
  | some dom, some qt, some diff, some qtext, some opts, some ca, some expl, some refs =>
    let question_id := generate_question_id exam_type timestamp index
    some {
      PK := "EXAM#" ++ exam_type
      SK := "QUESTION#" ++ question_id
      id := question_id
      examType := exam_type
      domain := dom
      questionType := qt
      difficulty := diff
      questionText := qtext
      options := opts
      correctAnswers := ca
      explanation := expl
      references := refs
      status := "approved"
      timesAnswered := 0
      timesCorrect := 0
      averageTimeSpent := 0
      createdAt := now
      updatedAt := now
      createdBy := "bedrock-ai"
      scenario := match q.scenario with
        | some s => if s = "" then none else some s
        | none => none
      codeSnippet := none }
  | _, _, _, _, _, _, _, _ => none

end Gen

namespace Seed

/-- `create_question_item` of `seed-questions.py`.  Same structure, but the id
is sequential, provenance is `"seed-script"`, and the two optional attributes
are copied by bare key presence (`if "scenario" in question_data`,
`if "codeSnippet" in question_data`). -/
def create_question_item (q : RawQuestion) (exam_type : String)
    (index : Nat) (now : String) : Option StoreItem :=
  match q.domain, q.questionType, q.difficulty, q.questionText, q.options,
      q.correctAnswers, q.explanation, q.references with
  | some dom, some qt, some diff, some qtext, some opts, some ca, some expl, some refs =>
    let question_id := seed_question_id exam_type index
    some {
      PK := "EXAM#" ++ exam_type
      SK := "QUESTION#" ++ question_id
      id := question_id
      examType := exam_type
      domain := dom
      questionType := qt
      difficulty := diff
      questionText := qtext
      options := opts
      correctAnswers := ca
      explanation := expl
      references := refs
      status := "approved"
      timesAnswered := 0
      timesCorrect := 0
      averageTimeSpent := 0
      createdAt := now
      updatedAt := now
      createdBy := "seed-script"
      scenario := q.scenario
      codeSnippet := q.codeSnippet }
  | _, _, _, _, _, _, _, _ => none

end Seed

/-- A record with all required keys present but with the §3 invariants
violated: `correctAnswers` is empty (hence not a non-empty subset of the
option ids) and `references` is empty. -/
def invalidRecord : RawQuestion := {
  domain := some "Security"
  questionType := some "single-choice"
  difficulty := some "easy"
  questionText := some "Which service encrypts data at rest?"
  scenario := none
  options := some [("A", "S3"), ("B", "KMS"), ("C", "EC2"), ("D", "SNS")]
  correctAnswers := some []
  explanation := some "KMS manages encryption keys."
  references := some []
  codeSnippet := none }

/-- C3 (code bug): neither mapper validates — a record that violates the
QuestionRecord invariants (empty `correctAnswers`, empty `references`) is
mapped successfully and forwarded to the store with `status = "approved"`,
instead of being rejected with a `ValidationError` as §4.2/§7 of the spec
require (§7 itself notes the baseline lacks this check). -/
theorem invalid_record_not_rejected :
    (Gen.create_question_item invalidRecord "Developer-Associate" 1 9 "T").map
      (fun it => (it.correctAnswers, it.references, it.status)) =
      some ([], [], "approved") ∧
    (Seed.create_question_item invalidRecord "Developer-Associate" 1 "T").map
      (fun it => (it.correctAnswers, it.references, it.status)) =
      some ([], [], "approved") := by
  constructor <;> rfl

/-- A record with every required key present, a present non-empty `scenario`
and a present `codeSnippet`. -/
def snippetRecord : RawQuestion := {
  domain := some "Development with AWS Services"
  questionType := some "scenario-based"
  difficulty := some "medium"
  questionText := some "What fixes the timeout?"
  scenario := some "A Lambda function times out intermittently."
  options := some [("A", "More memory"), ("B", "VPC endpoints"), ("C", "Retries"), ("D", "Runtime upgrade")]
  correctAnswers := some ["B"]
  explanation := some "VPC endpoints remove the NAT bottleneck."
  references := some ["https://docs.aws.amazon.com/lambda/"]
  codeSnippet := some "import boto3" }

/-- C9 counterexample: the claim says the mapped item carries a `codeSnippet`
attribute exactly when the input has the field, but the
`generate-questions.py` mapper drops a present `codeSnippet` entirely. -/
theorem optional_fields_counterexample :
    snippetRecord.codeSnippet = some "import boto3" ∧
    (Gen.create_question_item snippetRecord "Developer-Associate" 1 9 "T").map
      (fun it => it.codeSnippet) = some none := by
  constructor <;> rfl

/-- C9 (amended): the `seed-questions.py` mapper copies `scenario` and
`codeSnippet` exactly when the field is present; the `generate-questions.py`
mapper emits `scenario` exactly when the field is present and non-empty and
never emits `codeSnippet`; in both, an absent field yields an absent
attribute (no empty placeholder). -/
theorem optional_fields_amended :
    (∀ (q : RawQuestion) (et : String) (idx ts : Nat) (now : String) (it : StoreItem),
      Gen.create_question_item q et idx ts now = some it →
        it.codeSnippet = none ∧
        ((∃ s, it.scenario = some s) ↔ (∃ s, q.scenario = some s ∧ s ≠ "")) ∧
        (q.scenario = none → it.scenario = none)) ∧
    (∀ (q : RawQuestion) (et : String) (idx : Nat) (now : String) (it : StoreItem),
      Seed.create_question_item q et idx now = some it →
        it.scenario = q.scenario ∧ it.codeSnippet = q.codeSnippet) := by
  constructor
  · intro q et idx ts now it h
    rw [Gen.create_question_item] at h
    split at h
    · simp only [Option.some.injEq] at h
      subst h
      refine ⟨rfl, ?_, ?_⟩
      · cases hs : q.scenario with
        | none => simp
        | some s =>
          by_cases hse : s = ""
          · subst hse
            simp
          · simp [hse]
      · intro hs
        simp [hs]
    · simp at h
  · intro q et idx now it h
    rw [Seed.create_question_item] at h
    split at h
    · simp only [Option.some.injEq] at h
      subst h
      exact ⟨rfl, rfl⟩
    · simp at h

/-- The item the generate-script mapper produces from `snippetRecord`. -/
def snippetItemGen : StoreItem := {
  PK := "EXAM#Developer-Associate"
  SK := "QUESTION#" ++ generate_question_id "Developer-Associate" 9 1
  id := generate_question_id "Developer-Associate" 9 1
  examType := "Developer-Associate"
  domain := "Development with AWS Services"
  questionType := "scenario-based"
  difficulty := "medium"
  questionText := "What fixes the timeout?"
  options := [("A", "More memory"), ("B", "VPC endpoints"), ("C", "Retries"), ("D", "Runtime upgrade")]
  correctAnswers := ["B"]
  explanation := "VPC endpoints remove the NAT bottleneck."
  references := ["https://docs.aws.amazon.com/lambda/"]
  status := "approved"
  timesAnswered := 0
  timesCorrect := 0
  averageTimeSpent := 0
  createdAt := "T"
  updatedAt := "T"
  createdBy := "bedrock-ai"
  scenario := some "A Lambda function times out intermittently."
  codeSnippet := none }

/-- The item the seed-script mapper produces from `snippetRecord`. -/
def snippetItemSeed : StoreItem := {
  PK := "EXAM#Developer-Associate"
  SK := "QUESTION#" ++ seed_question_id "Developer-Associate" 1
  id := seed_question_id "Developer-Associate" 1
  examType := "Developer-Associate"
  domain := "Development with AWS Services"
  questionType := "scenario-based"
  difficulty := "medium"
  questionText := "What fixes the timeout?"
  options := [("A", "More memory"), ("B", "VPC endpoints"), ("C", "Retries"), ("D", "Runtime upgrade")]
  correctAnswers := ["B"]
  explanation := "VPC endpoints remove the NAT bottleneck."
  references := ["https://docs.aws.amazon.com/lambda/"]
  status := "approved"
  timesAnswered := 0
  timesCorrect := 0
  averageTimeSpent := 0
  createdAt := "T"
  updatedAt := "T"
  createdBy := "seed-script"
  scenario := some "A Lambda function times out intermittently."
  codeSnippet := some "import boto3" }

/-- C9 amended-claim witness: both mappers applied to `snippetRecord`. -/
theorem optional_fields_amended_witness :
    (snippetItemGen.codeSnippet = none ∧
      ((∃ s, snippetItemGen.scenario = some s) ↔
        (∃ s, snippetRecord.scenario = some s ∧ s ≠ "")) ∧
      (snippetRecord.scenario = none → snippetItemGen.scenario = none)) ∧
    (snippetItemSeed.scenario = snippetRecord.scenario ∧
      snippetItemSeed.codeSnippet = snippetRecord.codeSnippet) :=
  ⟨optional_fields_amended.1 snippetRecord "Developer-Associate" 1 9 "T" snippetItemGen rfl,
   optional_fields_amended.2 snippetRecord "Developer-Associate" 1 "T" snippetItemSeed rfl⟩

/-- C10: key denormalization consistency — every item either mapper produces
satisfies `PK = "EXAM#" ++ examType`, `SK = "QUESTION#" ++ id`, and its
`examType` attribute equals the exam type, so the composite key is recoverable
from the item body. -/
theorem key_denormalization_consistent :
    (∀ (q : RawQuestion) (et : String) (idx ts : Nat) (now : String) (it : StoreItem),
      Gen.create_question_item q et idx ts now = some it →
        it.PK = "EXAM#" ++ et ∧ it.SK = "QUESTION#" ++ it.id ∧ it.examType = et) ∧
    (∀ (q : RawQuestion) (et : String) (idx : Nat) (now : String) (it : StoreItem),
      Seed.create_question_item q et idx now = some it →
        it.PK = "EXAM#" ++ et ∧ it.SK = "QUESTION#" ++ it.id ∧ it.examType = et) := by
  constructor
  · intro q et idx ts now it h
    rw [Gen.create_question_item] at h
    split at h
    · simp only [Option.some.injEq] at h
      subst h
      exact ⟨rfl, rfl, rfl⟩
    · simp at h
  · intro q et idx now it h
    rw [Seed.create_question_item] at h
    split at h
    · simp only [Option.some.injEq] at h
      subst h
      exact ⟨rfl, rfl, rfl⟩
    · simp at h

/-- C10 witness: both mappers applied to `snippetRecord`. -/
theorem key_denormalization_consistent_witness :
    (snippetItemGen.PK = "EXAM#" ++ "Developer-Associate" ∧
      snippetItemGen.SK = "QUESTION#" ++ snippetItemGen.id ∧
      snippetItemGen.examType = "Developer-Associate") ∧
    (snippetItemSeed.PK = "EXAM#" ++ "Developer-Associate" ∧
      snippetItemSeed.SK = "QUESTION#" ++ snippetItemSeed.id ∧
      snippetItemSeed.examType = "Developer-Associate") :=
  ⟨key_denormalization_consistent.1 snippetRecord "Developer-Associate" 1 9 "T"
      snippetItemGen rfl,
   key_denormalization_consistent.2 snippetRecord "Developer-Associate" 1 "T"
      snippetItemSeed rfl⟩

/-- Python `str.find(c)`: index of the first occurrence, `none` for `-1`. -/
def find_first (c : Char) : List Char → Option Nat
  | [] => none
  | x :: xs => if x = c then some 0 else (find_first c xs).map (· + 1)

/-- Python `str.rfind(c)`: index of the last occurrence, `none` for `-1`. -/
def find_last (c : Char) (t : List Char) : Option Nat :=
  (find_first c t.reverse).map fun k => t.length - 1 - k

/-- `generate_questions_with_bedrock`, over a transport oracle `raw` (the
Bedrock call, which may raise) and a parse oracle `parse` (`json.loads`).
The JSON array is extracted between the first `[` and the last `]`
(`text[json_start:json_end]`); a missing bracket, a raised call or a parse
failure all end in `sys.exit(1)`, modelled as `Except.error ()`. -/
def generate_questions_with_bedrock {Q : Type} (raw : Except Unit (List Char))
    (parse : List Char → Option (List Q)) : Except Unit (List Q) :=
  match raw with
  | .error _ => .error ()
  | .ok text =>
    match find_first '[' text, find_last ']' text with
    | some s, some e =>
      match parse ((text.drop s).take (e + 1 - s)) with
      | some qs => .ok qs
      | none => .error ()
    | _, _ => .error ()

/-- What one run of `main` in `generate-questions.py` leaves behind:
the process exit code, every chunk submitted to the store in order, and the
run-total `total_inserted`. -/
structure RunOutcome (I : Type) where
  exitCode : Nat
  submitted : List (List I)
  insertedCount : Nat
deriving DecidableEq

/-- The domain loop of `main`: for each domain (indexed by `j`) generate
questions (`dg j`), map them to items (`mkItems j`, the Item Mapper plus Key
Assigner composition), and batch-write them; a generation failure is
`sys.exit(1)` — nothing further is submitted. -/
def runDomains {Q I : Type} (dg : Nat → Except Unit (List Q))
    (store : Nat → Nat → StoreResp I) (mkItems : Nat → List Q → List I) :
    Nat → List String → RunOutcome I
  | _, [] => ⟨0, [], 0⟩
  | j, _d :: rest =>
    match dg j with
    | .error _ => ⟨1, [], 0⟩
    | .ok qs =>
      let w := batchWriteLoop (store j) 0 (chunkList25 (mkItems j qs))
      let tail := runDomains dg store mkItems (j + 1) rest
      ⟨tail.exitCode, w.2.2 ++ tail.submitted, w.1 + tail.insertedCount⟩

lemma find_first_eq_none {c : Char} : ∀ {t : List Char}, c ∉ t → find_first c t = none := by
  intro t
  induction t with
  | nil => intro _; rfl
  | cons x xs ih =>
    intro h
    rw [List.mem_cons, not_or] at h
    rw [find_first, if_neg (fun hxc => h.1 hxc.symm), ih h.2]
    rfl

lemma generation_failure_is_error {Q : Type} (raw : Except Unit (List Char))
    (parse : List Char → Option (List Q))
    (h : raw = .error () ∨ ∃ t, raw = .ok t ∧ ('[' ∉ t ∨ ']' ∉ t)) :
    generate_questions_with_bedrock raw parse = .error () := by
  rcases h with h | ⟨t, rfl, h⟩
  · rw [h]
    rfl
  · rw [generate_questions_with_bedrock]
    rcases h with h | h
    · rw [find_first_eq_none h]
    · rw [find_last, @find_first_eq_none ']' t.reverse (by rwa [List.mem_reverse])]
      cases find_first '[' t <;> rfl

lemma runDomains_abort {Q I : Type} (dg : Nat → Except Unit (List Q))
    (store : Nat → Nat → StoreResp I) (mkItems : Nat → List Q → List I)
    (qsf : Nat → List Q) :
    ∀ (ds : List String) (s j : Nat), s ≤ j → j < s + ds.length →
      (∀ k, s ≤ k → k < j → dg k = .ok (qsf k)) → dg j = .error () →
      runDomains dg store mkItems s ds =
        ⟨1,
         ((List.range' s (j - s)).map fun k => chunkList25 (mkItems k (qsf k))).flatten,
         ((List.range' s (j - s)).map fun k =>
           (batchWriteLoop (store k) 0 (chunkList25 (mkItems k (qsf k)))).1).sum⟩ := by
  intro ds
  induction ds with
  | nil =>
    intro s j hsj hlt _ _
    simp at hlt
    omega
  | cons d rest ih =>
    intro s j hsj hlt hok herr
    by_cases hej : j = s
    · subst hej
      rw [runDomains, herr]
      have : j - j = 0 := by omega
      rw [this]
      rfl
    · have hok_s : dg s = .ok (qsf s) := hok s le_rfl (by omega)
      rw [runDomains, hok_s]
      have htail := ih (s + 1) j (by omega) (by simp at hlt ⊢; omega)
        (fun k hk1 hk2 => hok k (by omega) hk2) herr
      rw [htail]
      have hrange : List.range' s (j - s) = s :: List.range' (s + 1) (j - (s + 1)) := by
        have h1 : j - s = (j - (s + 1)) + 1 := by omega
        rw [h1]
        exact List.range'_succ s (j - (s + 1)) 1
      rw [hrange]
      simp only [List.map_cons, List.flatten_cons, List.sum_cons]
      rw [batchWriteLoop_submitted]

/-- C7: a Generator failure (the Bedrock call raised, or its response text
contains no extractable JSON array) at domain `j` aborts the whole run with
exit status 1; the chunks submitted are exactly those of the earlier domains
`0..j-1`, so nothing is submitted for domain `j` or any later domain; when
the failing domain is the first one, the run inserts nothing and submits
nothing. -/
theorem generator_failure_fatal {Q I : Type} (raw : Nat → Except Unit (List Char))
    (parse : List Char → Option (List Q)) (store : Nat → Nat → StoreResp I)
    (mkItems : Nat → List Q → List I) (domains : List String) (j : Nat)
    (qsf : Nat → List Q)
    (hj : j < domains.length)
    (hok : ∀ k, k < j → generate_questions_with_bedrock (raw k) parse = .ok (qsf k))
    (hfail : raw j = .error () ∨ ∃ t, raw j = .ok t ∧ ('[' ∉ t ∨ ']' ∉ t)) :
    (runDomains (fun k => generate_questions_with_bedrock (raw k) parse)
        store mkItems 0 domains).exitCode = 1 ∧
    (runDomains (fun k => generate_questions_with_bedrock (raw k) parse)
        store mkItems 0 domains).submitted =
      ((List.range j).map fun k => chunkList25 (mkItems k (qsf k))).flatten ∧
    (j = 0 →
      (runDomains (fun k => generate_questions_with_bedrock (raw k) parse)
          store mkItems 0 domains).insertedCount = 0 ∧
      (runDomains (fun k => generate_questions_with_bedrock (raw k) parse)
          store mkItems 0 domains).submitted = []) := by
  have habort := runDomains_abort (fun k => generate_questions_with_bedrock (raw k) parse)
    store mkItems qsf domains 0 j (Nat.zero_le j) (by omega)
    (fun k _ hk => hok k hk)
    (generation_failure_is_error (raw j) parse hfail)
  have hrange : List.range' 0 (j - 0) = List.range j := by
    rw [Nat.sub_zero, List.range_eq_range']
  rw [habort, hrange]
  refine ⟨rfl, rfl, ?_⟩
  intro h0
  subst h0
  simp

/-- C7 witness: a two-domain run whose first Bedrock call raises. -/
theorem generator_failure_fatal_witness :
    (runDomains
        (fun k => generate_questions_with_bedrock ((fun _ => Except.error ()) k)
          (fun _ => (none : Option (List Unit))))
        (fun _ _ => (StoreResp.ok [] : StoreResp Unit)) (fun _ _ => [])
        0 ["Security", "Deployment"]).exitCode = 1 ∧
    (runDomains
        (fun k => generate_questions_with_bedrock ((fun _ => Except.error ()) k)
          (fun _ => (none : Option (List Unit))))
        (fun _ _ => (StoreResp.ok [] : StoreResp Unit)) (fun _ _ => [])
        0 ["Security", "Deployment"]).submitted =
      ((List.range 0).map fun k => chunkList25 ((fun _ _ => ([] : List Unit)) k
        ((fun _ => ([] : List Unit)) k))).flatten ∧
    (0 = 0 →
      (runDomains
          (fun k => generate_questions_with_bedrock ((fun _ => Except.error ()) k)
            (fun _ => (none : Option (List Unit))))
          (fun _ _ => (StoreResp.ok [] : StoreResp Unit)) (fun _ _ => [])
          0 ["Security", "Deployment"]).insertedCount = 0 ∧
      (runDomains
          (fun k => generate_questions_with_bedrock ((fun _ => Except.error ()) k)
            (fun _ => (none : Option (List Unit))))
          (fun _ _ => (StoreResp.ok [] : StoreResp Unit)) (fun _ _ => [])
          0 ["Security", "Deployment"]).submitted = []) :=
  generator_failure_fatal (fun _ => Except.error ()) (fun _ => none)
    (fun _ _ => StoreResp.ok []) (fun _ _ => []) ["Security", "Deployment"] 0
    (fun _ => []) (by decide) (fun k hk => absurd hk (Nat.not_lt_zero k))
    (Or.inl rfl)

end Quiz
